import Mathlib

/-!
Shallow embedding of the stock-news polling and aggregation pipeline
(src/main.py) and proofs of its specification properties.

Time stamps, prices and sentiment scores are modelled as rationals
(Python floats); external effects are modelled by passing their results
explicitly: the symbol source is a list of quotes, the news source a
parsed feed, the sentiment scorer an abstract function on strings.
Python exceptions that the code does not catch are modelled with an
explicit error component.
-/

set_option autoImplicit false

namespace Trading

/-! ## Data model -/

/-- Result of a yfinance info lookup for one symbol: the two fields
read by filter_stocks; a missing dictionary key is modelled by none
(the code defaults a missing price to 0 and missing float shares to
infinity, which fails the strict bound). -/
structure StockInfo where
  regularMarketPrice : Option ℚ
  floatShares : Option ℚ
deriving Repr, DecidableEq

/-- One symbol of the symbol source together with its info; info = none
models an exception raised while fetching the data (caught and skipped
by filter_stocks). -/
structure Quote where
  symbol : String
  info : Option StockInfo
deriving Repr, DecidableEq

/-- One row of filtered_stocks.csv: symbol and capture timestamp;
timestamp = none models a row whose timestamp column does not parse as
a float (ValueError) or is missing (IndexError). -/
structure CsvRow where
  symbol : String
  timestamp : Option ℚ
deriving Repr, DecidableEq

/-- A feedparser entry as read by process_news: optional id and link,
title, optional summary, and published_parsed as an optional timestamp
(none models a missing or unparseable publish date, for which
time.mktime raises). -/
structure NewsItem where
  id : Option String
  link : Option String
  title : String
  summary : Option String
  published : Option ℚ
deriving Repr, DecidableEq

/-- A parsed RSS feed: bozo flag and entries. -/
structure Feed where
  bozo : Bool
  entries : List NewsItem
deriving Repr, DecidableEq

/-- NEWS_CACHE: maps a news identity to (sentiment, scored_at).
Modelled as an association list with Python-dict insertion semantics
(updating an existing key in place, appending a new key at the end). -/
abbrev Cache := List (String × ℚ × ℚ)

/-- Uncaught Python exceptions that can escape process_news. -/
inductive PyErr where
  | nameError
  | typeError
deriving Repr, DecidableEq

/-! ## Step 2: filter stocks by price and float (filter_stocks) -/

/-- The filter predicate of filter_stocks on one info record:
2 <= price <= 20 and float_shares < 20_000_000, with the code's
defaults for missing keys (price 0, float infinity). -/
def passes_filter (info : StockInfo) : Bool :=
  let price := info.regularMarketPrice.getD 0
  match info.floatShares with
  | none => false
  | some f => decide (2 ≤ price) && decide (price ≤ 20) && decide (f < 20000000)

/-- Whether one quote passes filter_stocks (a fetch exception is
caught and the symbol skipped). -/
def qualifies (q : Quote) : Bool :=
  match q.info with
  | none => false
  | some info => passes_filter info

/-- The loop of filter_stocks, carrying the filtered accumulator; the
loop breaks as soon as the accumulator reaches length 5. -/
def filter_stocksAux : List Quote → List String → List String
  | [], filtered => filtered
  | q :: rest, filtered =>
    if qualifies q then
      if (filtered ++ [q.symbol]).length = 5 then filtered ++ [q.symbol]
      else filter_stocksAux rest (filtered ++ [q.symbol])
    else filter_stocksAux rest filtered

/-- filter_stocks: collect symbols whose price is between 2 and 20 and
whose float is below 20M, stopping after 5 matches. -/
def filter_stocks (quotes : List Quote) : List String :=
  filter_stocksAux quotes []

/-! ## Universe cache (save_to_csv, load_from_csv, get_filtered_stocks) -/

/-- save_to_csv: one row per symbol, all carrying the same capture
timestamp. -/
def save_to_csv (symbols : List String) (now : ℚ) : List CsvRow :=
  symbols.map (fun s => CsvRow.mk s (some now))

/-- load_from_csv: return the cached symbols when the file exists, has
at least one data row, the first row's timestamp parses, and
now - timestamp < CACHE_DURATION (24 hours); otherwise None.
file = none models FileNotFoundError. -/
def load_from_csv (file : Option (List CsvRow)) (now : ℚ) : Option (List String) :=
  match file with
  | none => none
  | some [] => none
  | some (r0 :: rest) =>
    match r0.timestamp with
    | none => none
    | some t0 =>
      if now - t0 < 86400 then some ((r0 :: rest).map CsvRow.symbol) else none

/-- get_filtered_stocks: serve the cached universe when fresh,
otherwise call the symbol source, filter, persist and return.  The
Bool records whether the symbol source was called; the third component
is the resulting CSV state. -/
def get_filtered_stocks (file : Option (List CsvRow)) (now : ℚ) (source : List Quote) :
    List String × Bool × Option (List CsvRow) :=
  match load_from_csv file now with
  | some cached => (cached, false, file)
  | none => (filter_stocks source, true, some (save_to_csv (filter_stocks source) now))

/-! ## Step 3: fetch news (fetch_news and the poll-loop guard) -/

/-- fetch_news: parse the RSS feed; a bozo feed or an exception
(feed = none) yields the empty list. -/
def fetch_news (feed : Option Feed) : List NewsItem :=
  match feed with
  | none => []
  | some f => if f.bozo then [] else f.entries

/-- The news-acquisition phase of one main-loop cycle: with an empty
symbol universe the loop skips straight to the backoff sleep and
fetch_news is never executed.  The Bool records whether fetch_news ran
(that is, whether any news network access was performed); the list is
the news items available to the rest of the cycle. -/
def cycle_fetch (symbols : List String) (feed : Option Feed) : Bool × List NewsItem :=
  if symbols.isEmpty then (false, [])
  else (true, fetch_news feed)

/-! ## Sentiment aggregation (process_news) -/

/-- The news identity used as the cache key:
item.get('id', item.get('link', item.title)). -/
def news_identity (item : NewsItem) : String :=
  item.id.getD (item.link.getD item.title)

/-- NEWS_CACHE lookup (Python dict membership plus indexing). -/
def lookupCache (k : String) : Cache → Option (ℚ × ℚ)
  | [] => none
  | (k', v) :: rest => if k' = k then some v else lookupCache k rest

/-- NEWS_CACHE assignment: replace the value of an existing key in
place, or append a new key (Python dict insertion order). -/
def cacheInsert (k : String) (v : ℚ × ℚ) : Cache → Cache
  | [] => [(k, v)]
  | (k', v') :: rest => if k' = k then (k, v) :: rest else (k', v') :: cacheInsert k v rest

/-- Assignment into the sentiments dict. -/
def setAssoc (k : String) (v : ℚ) : List (String × ℚ) → List (String × ℚ)
  | [] => [(k, v)]
  | (k', v') :: rest => if k' = k then (k, v) :: rest else (k', v') :: setAssoc k v rest

/-- List infix test, used to model the Python substring operator. -/
def isSubstr : List Char → List Char → Bool
  | needle, [] => needle.isEmpty
  | needle, c :: rest => needle.isPrefixOf (c :: rest) || isSubstr needle rest

/-- Python `pattern in text` on strings. -/
def strContains (text pattern : String) : Bool :=
  isSubstr pattern.toList text.toList

/-- The text analyzed for a news item:
item.title + " " + item.get('summary', ''). -/
def analysis_text (item : NewsItem) : String :=
  item.title ++ " " ++ item.summary.getD ""

/-- The state threaded through the process_news loop: the news cache,
the local variable text (none while still unassigned — Python raises
NameError if it is read before any cache miss assigned it), the
sentiments dict, and the number of analyze_sentiment invocations
(instrumentation recording Scorer calls). -/
structure AggState where
  cache : Cache
  text : Option String
  sentiments : List (String × ℚ)
  calls : Nat
deriving Repr, DecidableEq

/-- The inner symbol-matching loop of process_news for one item: scan
the symbols in order; at the first symbol occurring in the text
variable, evaluate the recency check (raising TypeError when
published_parsed is missing) and assign the sentiment only when
now - published < 3600, then break.  Reading an unassigned text raises
NameError. -/
def match_symbols (current_time : ℚ) (item : NewsItem) (sentiment : ℚ) (text : Option String) :
    List String → List (String × ℚ) → Except PyErr (List (String × ℚ))
  | [], sentiments => Except.ok sentiments
  | symbol :: rest, sentiments =>
    match text with
    | none => Except.error PyErr.nameError
    | some t =>
      if strContains t symbol then
        match item.published with
        | none => Except.error PyErr.typeError
        | some p =>
          if current_time - p < 3600 then Except.ok (setAssoc symbol sentiment sentiments)
          else Except.ok sentiments
      else match_symbols current_time item sentiment text rest sentiments

/-- One iteration of the process_news loop for a single item: consult
the cache (an entry younger than 7200 s is a hit, reusing its score
and leaving text unassigned), otherwise build the analysis text, score
it and store (score, now); then run the symbol-matching loop. -/
def stepItem (scorer : String → ℚ) (current_time : ℚ) (symbols : List String)
    (item : NewsItem) (st : AggState) : AggState × Option PyErr :=
  let news_id := news_identity item
  let cachedFresh : Option ℚ :=
    match lookupCache news_id st.cache with
    | some sv => if current_time - sv.2 < 7200 then some sv.1 else none
    | none => none
  match cachedFresh with
  | some sentiment =>
    match match_symbols current_time item sentiment st.text symbols st.sentiments with
    | Except.error e => (st, some e)
    | Except.ok sents' => ({ st with sentiments := sents' }, none)
  | none =>
    let text := analysis_text item
    let sentiment := scorer text
    let cache' := cacheInsert news_id (sentiment, current_time) st.cache
    match match_symbols current_time item sentiment (some text) symbols st.sentiments with
    | Except.error e =>
      ({ cache := cache', text := some text, sentiments := st.sentiments,
         calls := st.calls + 1 }, some e)
    | Except.ok sents' =>
      ({ cache := cache', text := some text, sentiments := sents',
         calls := st.calls + 1 }, none)

/-- The process_news loop over all items; an uncaught exception aborts
the loop (the global cache keeps the mutations made so far). -/
def runItems (scorer : String → ℚ) (current_time : ℚ) (symbols : List String) :
    List NewsItem → AggState → AggState × Option PyErr
  | [], st => (st, none)
  | item :: rest, st =>
    match stepItem scorer current_time symbols item st with
    | (st', none) => runItems scorer current_time symbols rest st'
    | (st', some e) => (st', some e)

/-- process_news: initialize every symbol to neutral 0 and fold the
items through the loop. -/
def process_news (scorer : String → ℚ) (news_items : List NewsItem) (symbols : List String)
    (cache : Cache) (current_time : ℚ) : AggState × Option PyErr :=
  runItems scorer current_time symbols news_items
    (AggState.mk cache none (symbols.map (fun s => (s, 0))) 0)

/-- clean_cache: delete every cache entry strictly older than 7200 s
(the code collects keys with now - scored_at > 7200 and deletes them,
which on the dict amounts to an order-preserving filter). -/
def clean_cache (current_time : ℚ) (cache : Cache) : Cache :=
  cache.filter (fun kv => !(decide (current_time - kv.2.2 > 7200)))

/-! ## Concrete fixtures used by witnesses and counterexamples -/

/-- A deterministic stand-in for the TextBlob scorer (a black box to
the pipeline). -/
def scorer0 : String → ℚ := fun _ => 3

/-- A recent news item whose analyzed text mentions AAA. -/
def itemW : NewsItem := NewsItem.mk (some "id1") none "AAA rallies today" none (some 900)

/-- A recent news item whose analyzed text mentions BBB, distinct
identity id2. -/
def itemB : NewsItem := NewsItem.mk (some "id2") none "BBB soars" none (some 950)

/-- A news item about AAA with a missing publish date. -/
def itemNoDate : NewsItem := NewsItem.mk (some "id3") none "AAA soars" none none

/-- A cache holding a fresh entry for itemW's identity. -/
def cacheHitW : Cache := [("id1", (5, 500))]

/-- Aggregation state with a fresh cache entry for itemW. -/
def stHit : AggState := AggState.mk cacheHitW none [("AAA", 0)] 0

/-- Aggregation state with an empty cache. -/
def stMiss : AggState := AggState.mk [] none [("AAA", 0)] 0

/-- Two extensionally equal caches represented in different orders. -/
def cacheW1 : Cache := [("a", (1, 0)), ("b", (2, 0))]

/-- Two extensionally equal caches represented in different orders. -/
def cacheW2 : Cache := [("b", (2, 0)), ("a", (1, 0))]

/-- Info record with the given price and a 1M float. -/
def infoAt (p : ℚ) : StockInfo := StockInfo.mk (some p) (some 1000000)

/-- Six quotes that all pass the code's filter; the first has price
exactly 20. -/
def quotesCE : List Quote :=
  [Quote.mk "FFF" (some (infoAt 20)), Quote.mk "AAA" (some (infoAt 10)),
   Quote.mk "BBB" (some (infoAt 10)), Quote.mk "CCC" (some (infoAt 10)),
   Quote.mk "DDD" (some (infoAt 10)), Quote.mk "EEE" (some (infoAt 10))]

end Trading

namespace Trading

set_option allowUnsafeReducibility true

attribute [semireducible] Rat.sub

/-! ## Filtering: characterization, cap of 5 -/

theorem filter_stocksAux_eq (quotes : List Quote) :
    ∀ filtered : List String, filtered.length < 5 →
      filter_stocksAux quotes filtered
        = filtered ++ ((quotes.filter qualifies).map Quote.symbol).take (5 - filtered.length) := by
  induction quotes with
  | nil => intro filtered _; simp [filter_stocksAux]
  | cons q rest ih =>
    intro filtered h
    by_cases hq : qualifies q
    · rw [filter_stocksAux, if_pos hq]
      by_cases h5 : (filtered ++ [q.symbol]).length = 5
      · rw [if_pos h5]
        have hlen : filtered.length = 4 := by simpa using h5
        have hstep : 5 - filtered.length = 1 := by omega
        simp [List.filter_cons_of_pos hq, hstep]
      · rw [if_neg h5]
        have hlt : (filtered ++ [q.symbol]).length < 5 := by
          simp only [List.length_append, List.length_singleton] at h5 ⊢
          omega
        rw [ih _ hlt]
        have hstep : 5 - filtered.length = (5 - (filtered ++ [q.symbol]).length) + 1 := by
          simp only [List.length_append, List.length_singleton]
          omega
        simp [List.filter_cons_of_pos hq, hstep, List.take_succ_cons]
    · rw [filter_stocksAux, if_neg hq, ih _ h]
      simp [List.filter_cons_of_neg hq]

/-- Claim C5 counterexample: on the six-quote source quotesCE the code
returns the first five matches of its own predicate, so the qualifying
symbol EEE (price 10, float 1M) is left out, and FFF with price
exactly 20 (excluded by the claim's strict bound price < max_price) is
included. -/
theorem filter_claim_counterexample :
    filter_stocks quotesCE = ["FFF", "AAA", "BBB", "CCC", "DDD"] ∧
    qualifies (Quote.mk "EEE" (some (infoAt 10))) = true ∧
    "EEE" ∉ filter_stocks quotesCE ∧
    ¬((20 : ℚ) < 20) ∧
    "FFF" ∈ filter_stocks quotesCE := by decide

/-- Claim C5 (amended): on a universe-cache miss the selector returns,
in symbol-source order, the first at most five symbols satisfying the
code's filter predicate 2 <= price <= 20 and float_shares < 20000000
(symbols whose data fetch fails are skipped); collection stops at the
fifth match, so qualifying symbols beyond the fifth are not included. -/
theorem filter_stocks_eq_take_five (quotes : List Quote) :
    filter_stocks quotes = ((quotes.filter qualifies).map Quote.symbol).take 5 := by
  have h := filter_stocksAux_eq quotes [] (by norm_num)
  simpa [filter_stocks] using h

/-- Claim C10: filter_stocks never returns more than 5 symbols: the
collection loop breaks as soon as the fifth qualifying symbol is
found, so a fresh universe produced on a cache miss has at most 5
symbols. -/
theorem filter_stocks_length_le (quotes : List Quote) :
    (filter_stocks quotes).length ≤ 5 := by
  have h := filter_stocksAux_eq quotes [] (by norm_num)
  simp only [filter_stocks] at *
  rw [h]
  simp [List.length_take]

/-! ## Sweep operation (clean_cache) -/

/-- Claim C7 counterexample: an entry whose age is exactly 7200 s (the
TTL boundary) survives the sweep, because the code removes only
entries with now - scored_at strictly greater than 7200; the claim as
stated requires it to be removed. -/
theorem clean_cache_boundary_counterexample :
    clean_cache 7200 [("k", (1, 0))] = [("k", (1, 0))] ∧ ((7200 : ℚ) - 0 ≥ 7200) := by
  constructor
  · rfl
  · norm_num

/-- Claim C7 (amended): after clean_cache runs at time now, the
sentiment cache contains exactly the entries whose age now - scored_at
is at most 7200 s (strictly older entries are removed; entries at most
7200 s old, including one exactly at the boundary, are retained
unchanged). -/
theorem clean_cache_mem_iff (now : ℚ) (cache : Cache) (e : String × ℚ × ℚ) :
    e ∈ clean_cache now cache ↔ e ∈ cache ∧ now - e.2.2 ≤ 7200 := by
  simp [clean_cache, List.mem_filter, not_lt]

/-! ## News fetch guard -/

/-- Claim C8: when the symbol universe is empty, the poll cycle skips
the news phase entirely: fetch_news never runs (no network access) and
the cycle sees no news items. -/
theorem empty_universe_no_fetch (feed : Option Feed) : cycle_fetch [] feed = (false, []) := rfl

/-! ## Universe cache TTL -/

/-- Claim C6: a persisted universe whose first row carries capture
timestamp t0 is served from the cache, without a symbol source call,
for every request strictly before t0 + 86400 s; every request at or
after t0 + 86400 s triggers a fresh symbol source call, filters and
persists the result. -/
theorem universe_cache_ttl (r0 : CsvRow) (rest : List CsvRow) (t0 now : ℚ)
    (source : List Quote) (ht0 : r0.timestamp = some t0) :
    (now < t0 + 86400 →
      get_filtered_stocks (some (r0 :: rest)) now source
        = ((r0 :: rest).map CsvRow.symbol, false, some (r0 :: rest))) ∧
    (t0 + 86400 ≤ now →
      get_filtered_stocks (some (r0 :: rest)) now source
        = (filter_stocks source, true, some (save_to_csv (filter_stocks source) now))) := by
  constructor
  · intro h
    have hlt : now - t0 < 86400 := by linarith
    simp [get_filtered_stocks, load_from_csv, ht0, hlt]
  · intro h
    have hge : ¬(now - t0 < 86400) := by simp; linarith
    simp [get_filtered_stocks, load_from_csv, ht0, hge]

/-- Witness for claim C6 at a one-row CSV captured at time 0: a
request at time 100 is served from the cache; a request at exactly
time 86400 refreshes. -/
theorem universe_cache_ttl_witness :
    get_filtered_stocks (some [CsvRow.mk "AAA" (some 0)]) 100 []
      = (["AAA"], false, some [CsvRow.mk "AAA" (some 0)]) ∧
    get_filtered_stocks (some [CsvRow.mk "AAA" (some 0)]) 86400 []
      = ([], true, some []) :=
  ⟨(universe_cache_ttl (CsvRow.mk "AAA" (some 0)) [] 0 100 [] rfl).1 (by norm_num),
   (universe_cache_ttl (CsvRow.mk "AAA" (some 0)) [] 0 86400 [] rfl).2 (by norm_num)⟩

/-! ## Cache primitives -/

theorem lookupCache_cacheInsert (k0 k : String) (v : ℚ × ℚ) (c : Cache) :
    lookupCache k (cacheInsert k0 v c) = if k0 = k then some v else lookupCache k c := by
  induction c with
  | nil => simp [cacheInsert, lookupCache]
  | cons kv rest ih =>
    obtain ⟨k2, v2⟩ := kv
    by_cases h2 : k2 = k0
    · subst h2
      by_cases hk : k2 = k
      · simp [cacheInsert, lookupCache, hk]
      · simp [cacheInsert, lookupCache, hk]
    · by_cases hk : k2 = k
      · subst hk
        have : ¬(k0 = k2) := fun h => h2 h.symm
        simp [cacheInsert, lookupCache, h2, this]
      · simp [cacheInsert, lookupCache, h2, hk, ih]

theorem lookupCache_cacheInsert_ext (k0 : String) (v : ℚ × ℚ) (c1 c2 : Cache)
    (h : ∀ k, lookupCache k c1 = lookupCache k c2) (k : String) :
    lookupCache k (cacheInsert k0 v c1) = lookupCache k (cacheInsert k0 v c2) := by
  rw [lookupCache_cacheInsert, lookupCache_cacheInsert]
  by_cases hk : k0 = k
  · simp [hk]
  · simp [hk, h k]

theorem map_fst_setAssoc (k : String) (v : ℚ) (l : List (String × ℚ))
    (h : k ∈ l.map Prod.fst) :
    (setAssoc k v l).map Prod.fst = l.map Prod.fst := by
  induction l with
  | nil => simp at h
  | cons kv rest ih =>
    obtain ⟨k2, v2⟩ := kv
    by_cases hk : k2 = k
    · subst hk; simp [setAssoc]
    · simp only [setAssoc, if_neg hk, List.map_cons]
      simp only [List.map_cons, List.mem_cons] at h
      rcases h with h | h
      · exact absurd h.symm hk
      · rw [ih h]

/-! ## Symbol matching preserves the snapshot's key set -/

theorem match_symbols_keys (t : ℚ) (item : NewsItem) (s : ℚ) (text : Option String) :
    ∀ (syms : List String) (sents sents' : List (String × ℚ)),
      (∀ x ∈ syms, x ∈ sents.map Prod.fst) →
      match_symbols t item s text syms sents = Except.ok sents' →
      sents'.map Prod.fst = sents.map Prod.fst := by
  intro syms
  induction syms with
  | nil =>
    intro sents sents' _ h
    simp only [match_symbols] at h
    cases h
    rfl
  | cons symbol rest ih =>
    intro sents sents' hmem h
    cases text with
    | none => simp [match_symbols] at h
    | some tx =>
      simp only [match_symbols] at h
      by_cases hc : strContains tx symbol
      · rw [if_pos hc] at h
        cases hp : item.published with
        | none => simp [hp] at h
        | some p =>
          simp only [hp] at h
          by_cases hr : t - p < 3600
          · rw [if_pos hr] at h
            cases h
            exact map_fst_setAssoc symbol s sents (hmem symbol (List.mem_cons_self _ _))
          · rw [if_neg hr] at h
            cases h
            rfl
      · rw [if_neg hc] at h
        exact ih sents sents' (fun x hx => hmem x (List.mem_cons_of_mem _ hx)) h

theorem stepItem_keys (scorer : String → ℚ) (t : ℚ) (symbols : List String)
    (item : NewsItem) (st : AggState)
    (h : ∀ x ∈ symbols, x ∈ st.sentiments.map Prod.fst) :
    ((stepItem scorer t symbols item st).1).sentiments.map Prod.fst
      = st.sentiments.map Prod.fst := by
  cases hl : lookupCache (news_identity item) st.cache with
  | none =>
    simp only [stepItem, hl]
    cases hm : match_symbols t item (scorer (analysis_text item))
        (some (analysis_text item)) symbols st.sentiments with
    | error e => simp [hm]
    | ok sents' =>
      simp only [hm]
      exact match_symbols_keys t item _ _ symbols st.sentiments sents' h hm
  | some sv =>
    by_cases hf : t - sv.2 < 7200
    · simp only [stepItem, hl, if_pos hf]
      cases hm : match_symbols t item sv.1 st.text symbols st.sentiments with
      | error e => simp [hm]
      | ok sents' =>
        simp only [hm]
        exact match_symbols_keys t item _ _ symbols st.sentiments sents' h hm
    · simp only [stepItem, hl, if_neg hf]
      cases hm : match_symbols t item (scorer (analysis_text item))
          (some (analysis_text item)) symbols st.sentiments with
      | error e => simp [hm]
      | ok sents' =>
        simp only [hm]
        exact match_symbols_keys t item _ _ symbols st.sentiments sents' h hm

theorem runItems_keys (scorer : String → ℚ) (t : ℚ) (symbols : List String) :
    ∀ (items : List NewsItem) (st : AggState),
      (∀ x ∈ symbols, x ∈ st.sentiments.map Prod.fst) →
      ((runItems scorer t symbols items st).1).sentiments.map Prod.fst
        = st.sentiments.map Prod.fst := by
  intro items
  induction items with
  | nil => intro st _; rfl
  | cons item rest ih =>
    intro st h
    have hstep := stepItem_keys scorer t symbols item st h
    rcases hs : stepItem scorer t symbols item st with ⟨st', e⟩
    rw [hs] at hstep
    cases e with
    | none =>
      have hrw : runItems scorer t symbols (item :: rest) st
          = runItems scorer t symbols rest st' := by
        simp [runItems, hs]
      rw [hrw, ih st' (fun x hx => by rw [hstep]; exact h x hx)]
      exact hstep
    | some e' =>
      have hrw : runItems scorer t symbols (item :: rest) st = (st', some e') := by
        simp [runItems, hs]
      rw [hrw]
      exact hstep

/-- Claim C9: the snapshot built by process_news always has exactly
the input symbols as its keys, in order: every input symbol is present
(initialized to neutral 0) and no other key ever appears, whatever the
items contain. -/
theorem process_news_keys (scorer : String → ℚ) (news_items : List NewsItem)
    (symbols : List String) (cache : Cache) (current_time : ℚ) :
    ((process_news scorer news_items symbols cache current_time).1).sentiments.map Prod.fst
      = symbols := by
  have h := runItems_keys scorer current_time symbols news_items
    (AggState.mk cache none (symbols.map fun s => (s, 0)) 0)
    (by intro x hx; simpa using hx)
  simp only [process_news]
  rw [h]
  clear h
  induction symbols with
  | nil => rfl
  | cons s rest ih => simpa using ih

/-! ## Sentiment cache contract -/

/-- Claim C2: processing one news item whose identity has a cache
entry younger than 7200 s leaves the cache and the scorer-invocation
count unchanged and is independent of the scorer (the cached score is
reused); when the entry is absent or at least 7200 s old, the scorer
is invoked exactly once on the item's analysis text and (score, now)
is stored under the item's identity. -/
theorem sentiment_cache_contract (scorer : String → ℚ) (t : ℚ) (symbols : List String)
    (item : NewsItem) (st : AggState) :
    ((∃ sv : ℚ × ℚ, lookupCache (news_identity item) st.cache = some sv ∧ t - sv.2 < 7200) →
      (stepItem scorer t symbols item st).1.cache = st.cache ∧
      (stepItem scorer t symbols item st).1.calls = st.calls ∧
      ∀ scorer' : String → ℚ,
        stepItem scorer' t symbols item st = stepItem scorer t symbols item st) ∧
    ((∀ sv : ℚ × ℚ, lookupCache (news_identity item) st.cache = some sv → 7200 ≤ t - sv.2) →
      (stepItem scorer t symbols item st).1.calls = st.calls + 1 ∧
      lookupCache (news_identity item) (stepItem scorer t symbols item st).1.cache
        = some (scorer (analysis_text item), t)) := by
  constructor
  · rintro ⟨sv, hl, hf⟩
    refine ⟨?_, ?_, ?_⟩
    · simp only [stepItem, hl, if_pos hf]
      cases hm : match_symbols t item sv.1 st.text symbols st.sentiments with
      | error e => simp [hm]
      | ok sents' => simp [hm]
    · simp only [stepItem, hl, if_pos hf]
      cases hm : match_symbols t item sv.1 st.text symbols st.sentiments with
      | error e => simp [hm]
      | ok sents' => simp [hm]
    · intro scorer'
      simp only [stepItem, hl, if_pos hf]
  · intro hstale
    have hnone :
        (match lookupCache (news_identity item) st.cache with
          | some sv => if t - sv.2 < 7200 then some sv.1 else none
          | none => none) = (none : Option ℚ) := by
      cases hl : lookupCache (news_identity item) st.cache with
      | none => rfl
      | some sv =>
        have := hstale sv hl
        simp [not_lt.mpr this]
    constructor
    · simp only [stepItem, hnone]
      cases hm : match_symbols t item (scorer (analysis_text item))
          (some (analysis_text item)) symbols st.sentiments with
      | error e => simp [hm]
      | ok sents' => simp [hm]
    · simp only [stepItem, hnone]
      cases hm : match_symbols t item (scorer (analysis_text item))
          (some (analysis_text item)) symbols st.sentiments with
      | error e => simp [hm, lookupCache_cacheInsert]
      | ok sents' => simp [hm, lookupCache_cacheInsert]

/-- Witness for claim C2: with a fresh entry for itemW the step makes
no scorer call and keeps the cache; with an empty cache it makes one
scorer call and stores (score, now). -/
theorem sentiment_cache_contract_witness :
    (stepItem scorer0 1000 ["AAA"] itemW stHit).1.calls = stHit.calls ∧
    (stepItem scorer0 1000 ["AAA"] itemW stHit).1.cache = stHit.cache ∧
    (stepItem scorer0 1000 ["AAA"] itemW stMiss).1.calls = stMiss.calls + 1 ∧
    lookupCache (news_identity itemW) (stepItem scorer0 1000 ["AAA"] itemW stMiss).1.cache
      = some (scorer0 (analysis_text itemW), 1000) := by
  have hmiss : ∀ sv : ℚ × ℚ,
      lookupCache (news_identity itemW) stMiss.cache = some sv → 7200 ≤ 1000 - sv.2 := by
    intro sv h
    simp [stMiss, lookupCache] at h
  exact ⟨((sentiment_cache_contract scorer0 1000 ["AAA"] itemW stHit).1
            ⟨(5, 500), by decide, by norm_num⟩).2.1,
         ((sentiment_cache_contract scorer0 1000 ["AAA"] itemW stHit).1
            ⟨(5, 500), by decide, by norm_num⟩).1,
         ((sentiment_cache_contract scorer0 1000 ["AAA"] itemW stMiss).2 hmiss).1,
         ((sentiment_cache_contract scorer0 1000 ["AAA"] itemW stMiss).2 hmiss).2⟩

/-! ## Determinism of aggregation in the cache contents -/

theorem stepItem_ext (scorer : String → ℚ) (t : ℚ) (symbols : List String) (item : NewsItem)
    (c1 c2 : Cache) (text : Option String) (sents : List (String × ℚ)) (calls : Nat)
    (h : ∀ k, lookupCache k c1 = lookupCache k c2) :
    (stepItem scorer t symbols item (AggState.mk c1 text sents calls)).1.text
      = (stepItem scorer t symbols item (AggState.mk c2 text sents calls)).1.text ∧
    (stepItem scorer t symbols item (AggState.mk c1 text sents calls)).1.sentiments
      = (stepItem scorer t symbols item (AggState.mk c2 text sents calls)).1.sentiments ∧
    (stepItem scorer t symbols item (AggState.mk c1 text sents calls)).1.calls
      = (stepItem scorer t symbols item (AggState.mk c2 text sents calls)).1.calls ∧
    (stepItem scorer t symbols item (AggState.mk c1 text sents calls)).2
      = (stepItem scorer t symbols item (AggState.mk c2 text sents calls)).2 ∧
    ∀ k, lookupCache k (stepItem scorer t symbols item (AggState.mk c1 text sents calls)).1.cache
      = lookupCache k (stepItem scorer t symbols item (AggState.mk c2 text sents calls)).1.cache := by
  have hid := h (news_identity item)
  cases hl1 : lookupCache (news_identity item) c1 with
  | none =>
    have hl2 : lookupCache (news_identity item) c2 = none := by rw [← hid, hl1]
    cases hm : match_symbols t item (scorer (analysis_text item))
        (some (analysis_text item)) symbols sents with
    | error e =>
      refine ⟨?_, ?_, ?_, ?_, ?_⟩ <;> simp only [stepItem, hl1, hl2, hm]
      exact lookupCache_cacheInsert_ext _ _ c1 c2 h
    | ok sents' =>
      refine ⟨?_, ?_, ?_, ?_, ?_⟩ <;> simp only [stepItem, hl1, hl2, hm]
      exact lookupCache_cacheInsert_ext _ _ c1 c2 h
  | some sv =>
    have hl2 : lookupCache (news_identity item) c2 = some sv := by rw [← hid, hl1]
    by_cases hf : t - sv.2 < 7200
    · cases hm : match_symbols t item sv.1 text symbols sents with
      | error e =>
        refine ⟨?_, ?_, ?_, ?_, ?_⟩ <;> simp only [stepItem, hl1, hl2, if_pos hf, hm]
        exact h
      | ok sents' =>
        refine ⟨?_, ?_, ?_, ?_, ?_⟩ <;> simp only [stepItem, hl1, hl2, if_pos hf, hm]
        exact h
    · cases hm : match_symbols t item (scorer (analysis_text item))
          (some (analysis_text item)) symbols sents with
      | error e =>
        refine ⟨?_, ?_, ?_, ?_, ?_⟩ <;> simp only [stepItem, hl1, hl2, if_neg hf, hm]
        exact lookupCache_cacheInsert_ext _ _ c1 c2 h
      | ok sents' =>
        refine ⟨?_, ?_, ?_, ?_, ?_⟩ <;> simp only [stepItem, hl1, hl2, if_neg hf, hm]
        exact lookupCache_cacheInsert_ext _ _ c1 c2 h

theorem runItems_ext (scorer : String → ℚ) (t : ℚ) (symbols : List String) :
    ∀ (items : List NewsItem) (c1 c2 : Cache) (text : Option String)
      (sents : List (String × ℚ)) (calls : Nat),
      (∀ k, lookupCache k c1 = lookupCache k c2) →
      (runItems scorer t symbols items (AggState.mk c1 text sents calls)).1.sentiments
        = (runItems scorer t symbols items (AggState.mk c2 text sents calls)).1.sentiments ∧
      (runItems scorer t symbols items (AggState.mk c1 text sents calls)).2
        = (runItems scorer t symbols items (AggState.mk c2 text sents calls)).2 := by
  intro items
  induction items with
  | nil => intro c1 c2 text sents calls _; exact ⟨rfl, rfl⟩
  | cons item rest ih =>
    intro c1 c2 text sents calls h
    obtain ⟨ht, hs, hc, he, hcache⟩ := stepItem_ext scorer t symbols item c1 c2 text sents calls h
    rcases h1 : stepItem scorer t symbols item (AggState.mk c1 text sents calls)
      with ⟨⟨cc1, tt1, ss1, nn1⟩, e1⟩
    rcases h2 : stepItem scorer t symbols item (AggState.mk c2 text sents calls)
      with ⟨⟨cc2, tt2, ss2, nn2⟩, e2⟩
    rw [h1, h2] at ht hs hc he hcache
    simp only at ht hs hc he hcache
    subst ht; subst hs; subst hc; subst he
    cases e1 with
    | none =>
      have g1 : runItems scorer t symbols (item :: rest) (AggState.mk c1 text sents calls)
          = runItems scorer t symbols rest (AggState.mk cc1 tt1 ss1 nn1) := by
        simp [runItems, h1]
      have g2 : runItems scorer t symbols (item :: rest) (AggState.mk c2 text sents calls)
          = runItems scorer t symbols rest (AggState.mk cc2 tt1 ss1 nn1) := by
        simp [runItems, h2]
      rw [g1, g2]
      exact ih cc1 cc2 tt1 ss1 nn1 hcache
    | some e =>
      have g1 : runItems scorer t symbols (item :: rest) (AggState.mk c1 text sents calls)
          = (AggState.mk cc1 tt1 ss1 nn1, some e) := by
        simp [runItems, h1]
      have g2 : runItems scorer t symbols (item :: rest) (AggState.mk c2 text sents calls)
          = (AggState.mk cc2 tt1 ss1 nn1, some e) := by
        simp [runItems, h2]
      rw [g1, g2]
      exact ⟨rfl, rfl⟩

/-- Claim C1: process_news is a deterministic function of the items,
the universe and the cache contents: two runs on the same items,
symbols and time whose caches agree as key-value mappings (whatever
their representation order) produce identical per-symbol snapshots and
identical error outcomes. -/
theorem aggregate_deterministic (scorer : String → ℚ) (news_items : List NewsItem)
    (symbols : List String) (cache1 cache2 : Cache) (current_time : ℚ)
    (h : ∀ k, lookupCache k cache1 = lookupCache k cache2) :
    (process_news scorer news_items symbols cache1 current_time).1.sentiments
      = (process_news scorer news_items symbols cache2 current_time).1.sentiments ∧
    (process_news scorer news_items symbols cache1 current_time).2
      = (process_news scorer news_items symbols cache2 current_time).2 :=
  runItems_ext scorer current_time symbols news_items cache1 cache2 none
    (symbols.map fun s => (s, 0)) 0 h

/-- Witness for claim C1 at two caches holding the same entries in
different orders. -/
theorem aggregate_deterministic_witness :
    (process_news scorer0 [itemW] ["AAA"] cacheW1 1000).1.sentiments
      = (process_news scorer0 [itemW] ["AAA"] cacheW2 1000).1.sentiments ∧
    (process_news scorer0 [itemW] ["AAA"] cacheW1 1000).2
      = (process_news scorer0 [itemW] ["AAA"] cacheW2 1000).2 :=
  aggregate_deterministic scorer0 [itemW] ["AAA"] cacheW1 cacheW2 1000 (by
    intro k
    by_cases ha : "a" = k
    · subst ha; decide
    · by_cases hb : "b" = k
      · subst hb; decide
      · simp [cacheW1, cacheW2, lookupCache, ha, hb])

/-! ## The two uncaught exceptions of process_news -/

/-- Claim C3 (code bug): symbol matching does not use the item's own
analyzed text on a cache hit, because the local variable text is only
assigned on cache misses.  First input: a single fresh-cached item
whose own text mentions AAA and which is recent, where the claim
predicts AAA receives the cached score, but the code raises NameError
(text is read while still unassigned).  Second input: itemW (cache
miss, text about AAA) followed by itemB (fresh cache hit, text about
BBB): the claim predicts AAA gets itemW's score 3 and BBB gets itemB's
cached score 5, but the code matches itemB against itemW's stale text
and assigns itemB's cached score 5 to AAA, leaving BBB neutral. -/
theorem stale_text_name_error :
    (process_news scorer0 [itemW] ["AAA"] cacheHitW 1000).2 = some PyErr.nameError ∧
    process_news scorer0 [itemW, itemB] ["AAA", "BBB"] [("id2", (5, 500))] 1000
      = (AggState.mk [("id2", (5, 500)), ("id1", (3, 1000))] (some "AAA rallies today ")
          [("AAA", 5), ("BBB", 0)] 1, none) ∧
    strContains (analysis_text itemB) "BBB" = true ∧
    strContains (analysis_text itemB) "AAA" = false ∧
    itemB.published = some 950 ∧ ((1000 : ℚ) - 950 < 3600) := by decide

/-- Claim C4 (code bug): an item with a missing or unparseable publish
date whose text mentions a universe symbol makes process_news raise
TypeError (time.mktime is applied to the absent date inside the
recency check, and nothing catches it), instead of being treated as
matching no symbol; the uncaught exception propagates out of the poll
loop. -/
theorem missing_published_type_error :
    process_news scorer0 [itemNoDate] ["AAA"] [] 1000
      = (AggState.mk [("id3", (3, 1000))] (some "AAA soars ") [("AAA", 0)] 1,
         some PyErr.typeError) ∧
    itemNoDate.published = none ∧
    strContains (analysis_text itemNoDate) "AAA" = true := by decide

end Trading
